import Mathlib

/-!
# Shallow embedding of the tebata signal-dispatch library

We embed the Go package `tebata` (file `tebata.go`, the context-based
version): a `Tebata` dispatcher owns a capacity-1 signal channel, a
cancellation context, and a mutex-guarded ordered list of reserved
function calls.  `Reserve` validates a callable and its bound arguments
(kind, arity, per-index assignability with nil always accepted), `exec`
invokes every reserved entry in order via reflection, `listen` is a
`select` over the signal channel and the context's done channel, and
`Close` cancels the context, stops signal delivery and closes the
channel.

Go runtime values are modelled by `Value` (nil interface, a non-function
value carrying its dynamic type, or a function value carrying its
declared parameter types), declared parameter types by `GoType`,
dynamic types by `RuntimeType`, and `reflect`'s assignability by
`assignableTo` (identical types are assignable, and everything is
assignable to the empty interface).  Faults (panics) are modelled
explicitly: `reflect.Value.Call` panics on a zero `Value` argument (a
reserved nil), and `close` of a closed channel panics.
-/

/-- OS signal identifiers (e.g. SIGINT, SIGTERM), abstracted. -/
abbrev Signal := Nat

/-- Go types as they occur as declared function-parameter types: a few
concrete kinds, pointer/channel types, and the empty interface. -/
inductive GoType where
  | tInt : GoType
  | tString : GoType
  | tBool : GoType
  | tPtr : GoType → GoType
  | tChan : GoType → GoType
  | tIface : GoType
deriving DecidableEq, Repr

/-- The dynamic (`reflect.TypeOf`) type of a non-nil Go value: a base
type, or a function type carrying its parameter-type list. -/
inductive RuntimeType where
  | base : GoType → RuntimeType
  | func_ : List GoType → RuntimeType
deriving DecidableEq, Repr

/-- `reflect.Type.AssignableTo` from a value's dynamic type to a
declared parameter type: identical types are assignable, and any type is
assignable to the empty interface (`interface{}` / `any`).  A
function-typed value fits only an interface parameter. -/
def assignableTo (arg : RuntimeType) (param : GoType) : Bool :=
  match arg with
  | RuntimeType.base t => t == param || param == GoType.tIface
  | RuntimeType.func_ _ => param == GoType.tIface

/-- Reference/pointer/interface-like Go types (the kinds whose zero
value is nil: pointers, channels, interfaces). -/
def isRefLike : GoType → Bool
  | GoType.tPtr _ => true
  | GoType.tChan _ => true
  | GoType.tIface => true
  | _ => false

/-- A Go `any` value as the dispatcher sees it: the nil interface, a
non-function value with its dynamic type and an identity, or a function
value with its declared parameter types and an identity. -/
inductive Value where
  | nil : Value
  | prim : GoType → Nat → Value
  | func_ : List GoType → Nat → Value
deriving DecidableEq, Repr

/-- Models `reflect.ValueOf(v).Kind() == reflect.Func`. -/
def Value.isFunc : Value → Bool
  | Value.func_ _ _ => true
  | _ => false

/-- Models `reflect.TypeOf(v)` for a non-nil value (the code only asks for the
type of arguments it has checked to be non-nil; on `nil` we return the
empty interface, a value the code never consumes). -/
def Value.runtimeType : Value → RuntimeType
  | Value.nil => RuntimeType.base GoType.tIface
  | Value.prim t _ => RuntimeType.base t
  | Value.func_ ps _ => RuntimeType.func_ ps

/-- One reserved call, a function and its bound arguments (struct
`functionData` in tebata.go). -/
structure functionData where
  function : Value
  args : List Value
deriving DecidableEq, Repr

/-- Dispatcher state (struct `Tebata` in tebata.go): the context's
cancellation flag, whether `signal.Stop` has been called, whether the
signal channel has been closed, the buffered contents of the capacity-1
signal channel, the subscribed signal set, and the reserved calls. -/
structure Tebata where
  cancelled : Bool
  stopped : Bool
  chClosed : Bool
  signalCh : List Signal
  signals : List Signal
  reservedFunctions : List functionData
deriving DecidableEq, Repr

/-- Construction `New(signals...)`: fresh context (not cancelled),
`signal.Notify` subscription active, empty capacity-1 channel, no
reservations. -/
def New (signals : List Signal) : Tebata :=
  { cancelled := false
    stopped := false
    chClosed := false
    signalCh := []
    signals := signals
    reservedFunctions := [] }

/-- Capacity of the signal channel: `make(chan os.Signal, 1)`. -/
def signalChCap : Nat := 1

/-- The Go runtime's delivery of an OS signal to a `signal.Notify`
channel: dropped if `signal.Stop` was called or the signal is not
subscribed; otherwise a non-blocking send, dropped when the buffer is
full. -/
def deliverSignal (s : Tebata) (sig : Signal) : Tebata :=
  if s.stopped then s
  else if sig ∈ s.signals then
    if s.signalCh.length < signalChCap then
      { s with signalCh := s.signalCh ++ [sig] }
    else s
  else s

/-- Errors returned by `Reserve` (the `Err...` variables in tebata.go). -/
inductive ReserveError where
  | invalidFunction : ReserveError
  | tooFewArgs : ReserveError
  | tooManyArgs : ReserveError
  | typeMismatch : ReserveError
deriving DecidableEq, Repr

/-- The per-index argument check of `Reserve`: for each parameter,
a nil argument is skipped, otherwise the argument's dynamic type must be
assignable to the declared parameter type (`args[i] == nil` /
`argType.AssignableTo(paramType)` loop in tebata.go, folded over the
parameter and argument lists, which have equal length at this point). -/
def checkArgTypes : List GoType → List Value → Bool
  | _, [] => true
  | [], _ => true
  | p :: ps, a :: as =>
    (a == Value.nil || assignableTo a.runtimeType p) && checkArgTypes ps as

/-- Registration `Reserve(function, args...)`: returns the error (if any) and the
resulting dispatcher state.  Mirrors tebata.go: kind check, then
too-few / too-many arity checks, then the per-index type check, then
append to `reservedFunctions`. -/
def Reserve (s : Tebata) (function : Value) (args : List Value) :
    Option ReserveError × Tebata :=
  match function with
  | Value.func_ ps _ =>
    if args.length < ps.length then (some ReserveError.tooFewArgs, s)
    else if args.length > ps.length then (some ReserveError.tooManyArgs, s)
    else if checkArgTypes ps args = false then (some ReserveError.typeMismatch, s)
    else (none,
      { s with reservedFunctions :=
          s.reservedFunctions ++ [{ function := function, args := args }] })
  | _ => (some ReserveError.invalidFunction, s)

/-- Precondition of `reflect.Value.Call` as `exec` uses it: the callee
is a function value, the argument count matches its parameter count, and
every argument is a non-zero `reflect.Value` (a reserved nil becomes the
zero `Value` via `reflect.ValueOf(nil)` and makes `Call` panic) whose
type is assignable to the parameter type. -/
def callPre (fd : functionData) : Bool :=
  match fd.function with
  | Value.func_ ps _ =>
    fd.args.length == ps.length &&
    (List.zip ps fd.args).all
      (fun pa => !(pa.2 == Value.nil) && assignableTo pa.2.runtimeType pa.1)
  | _ => false

/-- The loop body of `exec` over a list of reserved entries: each entry
whose reflective call precondition holds is invoked (recorded in the
trace as its function paired with its bound arguments); at the first
entry whose precondition fails, `reflect.Value.Call` panics, later
entries are not reached, and the fault flag is set. -/
def execList : List functionData → List (Value × List Value) × Bool
  | [] => ([], false)
  | fd :: rest =>
    if callPre fd then
      let r := execList rest
      ((fd.function, fd.args) :: r.1, r.2)
    else ([], true)

/-- Dispatch `exec()`: under the mutex, invoke every reserved function with its
bound arguments, in order.  Returns the invocation trace and whether the
dispatch faulted (panicked inside the reflective call machinery). -/
def exec (s : Tebata) : List (Value × List Value) × Bool :=
  execList s.reservedFunctions

/-- Which arm the `select` in `listen` takes. -/
inductive SelectChoice where
  | sig : SelectChoice
  | done : SelectChoice
deriving DecidableEq, Repr

/-- The signal-channel receive case of the `select` is ready: a value is
buffered, or the channel is closed (a closed channel receive yields a
zero value immediately). -/
def sigReady (s : Tebata) : Bool :=
  !s.signalCh.isEmpty || s.chClosed

/-- The `ctx.Done()` case of the `select` is ready. -/
def doneReady (s : Tebata) : Bool :=
  s.cancelled

/-- What one iteration of `listen`'s `select` did. -/
inductive ListenEvent where
  | dispatch : ListenEvent
  | stop : ListenEvent
deriving DecidableEq, Repr

/-- One iteration of `listen`: the `select` may take any READY case
(Go chooses uniformly at random among ready cases; we expose the choice
as a parameter).  Taking the signal case drains one buffered
notification (or a zero value from a closed channel) and runs `exec`;
taking the done case returns, stopping the listener.  `none` means the
chosen case is not ready (the select would not have taken it). -/
def listenStep (s : Tebata) (c : SelectChoice) :
    Option (Tebata × ListenEvent) :=
  match c with
  | SelectChoice.sig =>
    if sigReady s then
      some ({ s with signalCh := s.signalCh.tail }, ListenEvent.dispatch)
    else none
  | SelectChoice.done =>
    if doneReady s then some (s, ListenEvent.stop) else none

/-- Teardown `Close()`: cancel the context, `signal.Stop` the channel,
then `close` it.  Closing an already-closed channel panics (`none`). -/
def Close (s : Tebata) : Option Tebata :=
  if s.chClosed then none
  else some { s with cancelled := true, stopped := true, chClosed := true }

/-- Validity of a registry entry as `Reserve` enforces it (the exact
conjunction of the checks on its success path): the stored callable is a
function value, the bound argument count equals its parameter count, and
every bound argument is nil or of a type assignable to its declared
parameter type. -/
def validEntry (fd : functionData) : Bool :=
  match fd.function with
  | Value.func_ ps _ =>
    fd.args.length == ps.length && checkArgTypes ps fd.args
  | _ => false

/-- Following the spec's wording (not the code), the claimed ReservedCall
data-model invariant: the bound argument count equals the callable's
arity, and each bound argument is assignable to the declared type of its
parameter, OR that parameter's declared type is reference/pointer/
interface-like and the argument is the no-value (nil) sentinel. -/
def specReservedCallInvariant (fd : functionData) : Bool :=
  match fd.function with
  | Value.func_ ps _ =>
    fd.args.length == ps.length &&
    (List.zip ps fd.args).all (fun pa =>
      assignableTo pa.2.runtimeType pa.1 || (isRefLike pa.1 && pa.2 == Value.nil))
  | _ => false

/-- Dispatcher states reachable through the public API and the
listener/OS steps: construction, registration (successful or not —
`Reserve` returns its resulting state in both cases), OS signal
delivery, one listener iteration, and a non-panicking `Close`. -/
inductive Reachable : Tebata → Prop where
  | new (signals : List Signal) : Reachable (New signals)
  | reserve {s : Tebata} (function : Value) (args : List Value) :
      Reachable s → Reachable (Reserve s function args).2
  | deliver {s : Tebata} (sig : Signal) :
      Reachable s → Reachable (deliverSignal s sig)
  | listen {s s' : Tebata} {c : SelectChoice} {e : ListenEvent} :
      Reachable s → listenStep s c = some (s', e) → Reachable s'
  | close {s s' : Tebata} :
      Reachable s → Close s = some s' → Reachable s'

/-- Concrete dispatcher used as a counterexample: a nil argument was
reserved for a pointer parameter (accepted, per the nil rule) followed
by a second, well-formed zero-argument reservation. -/
def nilArgState : Tebata :=
  (Reserve
    (Reserve (New []) (Value.func_ [GoType.tPtr GoType.tString] 0) [Value.nil]).2
    (Value.func_ [] 1) []).2

/-- Concrete dispatcher with both `select` cases ready: a signal was
delivered (still buffered) and `Close` was then called (context
cancelled, channel closed). -/
def closedPendingState : Tebata :=
  { cancelled := true
    stopped := true
    chClosed := true
    signalCh := [1]
    signals := [1]
    reservedFunctions := [] }

/-- Concrete dispatcher with one well-formed reservation (an int
parameter bound to an int value), used to instantiate theorems. -/
def goodState : Tebata :=
  (Reserve (New [1]) (Value.func_ [GoType.tInt] 0) [Value.prim GoType.tInt 3]).2

/-! ## Helper lemmas -/

theorem Reserve_cases (s : Tebata) (f : Value) (args : List Value) :
    ((Reserve s f args).1 ≠ none ∧ (Reserve s f args).2 = s) ∨
    ((Reserve s f args).1 = none ∧
     (Reserve s f args).2 =
       { s with reservedFunctions :=
           s.reservedFunctions ++ [{ function := f, args := args }] } ∧
     validEntry { function := f, args := args } = true) := by
  cases f with
  | nil => exact Or.inl ⟨by simp [Reserve], rfl⟩
  | prim t m => exact Or.inl ⟨by simp [Reserve], rfl⟩
  | func_ ps m =>
    by_cases h1 : args.length < ps.length
    · exact Or.inl ⟨by simp [Reserve, h1], by simp [Reserve, h1]⟩
    · by_cases h2 : args.length > ps.length
      · exact Or.inl ⟨by simp [Reserve, h1, h2], by simp [Reserve, h1, h2]⟩
      · by_cases h3 : checkArgTypes ps args = false
        · exact Or.inl ⟨by simp [Reserve, h1, h2, h3], by simp [Reserve, h1, h2, h3]⟩
        · refine Or.inr ⟨by simp [Reserve, h1, h2, h3], by simp [Reserve, h1, h2, h3], ?_⟩
          have hlen : args.length = ps.length := by omega
          have hck : checkArgTypes ps args = true := by
            cases hb : checkArgTypes ps args
            · exact absurd hb h3
            · rfl
          simp [validEntry, hlen, hck]

theorem Reserve_state_of_error (s : Tebata) (f : Value) (args : List Value)
    (e : ReserveError) (h : (Reserve s f args).1 = some e) :
    (Reserve s f args).2 = s := by
  rcases Reserve_cases s f args with ⟨_, h2⟩ | ⟨h1, _, _⟩
  · exact h2
  · rw [h1] at h
    cases h

theorem Reserve_ok_append (s : Tebata) (f : Value) (args : List Value)
    (h : (Reserve s f args).1 = none) :
    (Reserve s f args).2.reservedFunctions =
      s.reservedFunctions ++ [{ function := f, args := args }] := by
  rcases Reserve_cases s f args with ⟨h1, _⟩ | ⟨_, h2, _⟩
  · exact absurd h h1
  · rw [h2]

theorem Reserve_signalCh (s : Tebata) (f : Value) (args : List Value) :
    (Reserve s f args).2.signalCh = s.signalCh := by
  rcases Reserve_cases s f args with ⟨_, h2⟩ | ⟨_, h2, _⟩ <;> rw [h2]

theorem deliverSignal_reservedFunctions (s : Tebata) (sig : Signal) :
    (deliverSignal s sig).reservedFunctions = s.reservedFunctions := by
  unfold deliverSignal
  split
  · rfl
  · split
    · split
      · rfl
      · rfl
    · rfl

theorem deliverSignal_signalCh_len (s : Tebata) (sig : Signal)
    (h : s.signalCh.length ≤ signalChCap) :
    (deliverSignal s sig).signalCh.length ≤ signalChCap := by
  unfold deliverSignal
  split
  · exact h
  · split
    · split
      · next hlt => simp only [List.length_append, List.length_cons, List.length_nil]; omega
      · exact h
    · exact h

theorem listenStep_state {s s' : Tebata} {c : SelectChoice} {e : ListenEvent}
    (h : listenStep s c = some (s', e)) :
    s' = { s with signalCh := s.signalCh.tail } ∨ s' = s := by
  cases c with
  | sig =>
    simp only [listenStep] at h
    split at h
    · simp only [Option.some.injEq, Prod.mk.injEq] at h
      exact Or.inl h.1.symm
    · exact Option.noConfusion h
  | done =>
    simp only [listenStep] at h
    split at h
    · simp only [Option.some.injEq, Prod.mk.injEq] at h
      exact Or.inr h.1.symm
    · exact Option.noConfusion h

theorem Close_state {s s' : Tebata} (h : Close s = some s') :
    s.chClosed = false ∧
    s' = { s with cancelled := true, stopped := true, chClosed := true } := by
  unfold Close at h
  split at h
  · exact Option.noConfusion h
  · next hc =>
    simp only [Option.some.injEq] at h
    exact ⟨by simpa using hc, h.symm⟩

theorem reachable_entries_valid {s : Tebata} (h : Reachable s) :
    ∀ fd ∈ s.reservedFunctions, validEntry fd = true := by
  induction h with
  | new signals => intro fd hfd; simp [New] at hfd
  | reserve f args hs ih =>
    intro fd hfd
    rcases Reserve_cases _ f args with ⟨_, heq⟩ | ⟨_, heq, hv⟩
    · rw [heq] at hfd
      exact ih fd hfd
    · rw [heq] at hfd
      simp only [List.mem_append, List.mem_singleton] at hfd
      rcases hfd with hfd | hfd
      · exact ih fd hfd
      · rw [hfd]
        exact hv
  | deliver sig hs ih =>
    intro fd hfd
    rw [deliverSignal_reservedFunctions] at hfd
    exact ih fd hfd
  | listen hs hstep ih =>
    intro fd hfd
    rcases listenStep_state hstep with h1 | h1 <;> rw [h1] at hfd <;> exact ih fd hfd
  | close hs hcl ih =>
    intro fd hfd
    rw [(Close_state hcl).2] at hfd
    exact ih fd hfd

theorem reachable_signalCh_bound {s : Tebata} (h : Reachable s) :
    s.signalCh.length ≤ signalChCap := by
  induction h with
  | new signals => simp [New]
  | reserve f args hs ih => rw [Reserve_signalCh]; exact ih
  | deliver sig hs ih => exact deliverSignal_signalCh_len _ _ ih
  | listen hs hstep ih =>
    rcases listenStep_state hstep with h1 | h1 <;> rw [h1]
    · simp only [List.length_tail]
      omega
    · exact ih
  | close hs hcl ih =>
    rw [(Close_state hcl).2]
    exact ih

/-! ## Claim theorems -/

/-- Claim C4: for every callable declared with k parameters, Reserve with
n bound arguments returns TooFewArguments whenever n < k and
TooManyArguments whenever n > k. -/
theorem C4_reserve_arity_errors (s : Tebata) (ps : List GoType) (m : Nat)
    (args : List Value) :
    (args.length < ps.length →
      (Reserve s (Value.func_ ps m) args).1 = some ReserveError.tooFewArgs) ∧
    (ps.length < args.length →
      (Reserve s (Value.func_ ps m) args).1 = some ReserveError.tooManyArgs) := by
  constructor
  · intro h
    simp [Reserve, h]
  · intro h
    have h1 : ¬ args.length < ps.length := by omega
    simp [Reserve, h1, h]

/-- Witness for C4 at a one-parameter callable with zero and with two
supplied arguments. -/
theorem C4_reserve_arity_errors_witness :
    (Reserve (New []) (Value.func_ [GoType.tInt] 0) []).1 =
      some ReserveError.tooFewArgs ∧
    (Reserve (New []) (Value.func_ [GoType.tInt] 0)
        [Value.prim GoType.tInt 0, Value.prim GoType.tInt 1]).1 =
      some ReserveError.tooManyArgs :=
  ⟨(C4_reserve_arity_errors (New []) [GoType.tInt] 0 []).1 (by decide),
   (C4_reserve_arity_errors (New []) [GoType.tInt] 0
      [Value.prim GoType.tInt 0, Value.prim GoType.tInt 1]).2 (by decide)⟩

/-- Claim C5: for every first argument that is not a function value and
every list of subsequent arguments, Reserve returns InvalidCallable. -/
theorem C5_reserve_invalid_callable (s : Tebata) (v : Value)
    (args : List Value) (h : v.isFunc = false) :
    (Reserve s v args).1 = some ReserveError.invalidFunction := by
  cases v with
  | nil => rfl
  | prim t m => rfl
  | func_ ps m => simp [Value.isFunc] at h

/-- Witness for C5 at a non-function (int-valued) first argument with a
nonempty argument list. -/
theorem C5_reserve_invalid_callable_witness :
    (Reserve (New []) (Value.prim GoType.tInt 7) [Value.nil]).1 =
      some ReserveError.invalidFunction :=
  C5_reserve_invalid_callable (New []) (Value.prim GoType.tInt 7)
    [Value.nil] rfl

/-- Claim C6: registration is atomic on failure — whenever Reserve
returns an error, the dispatcher state (in particular the
reserved-function sequence) is exactly what it was before the call. -/
theorem C6_reserve_error_atomic (s : Tebata) (f : Value) (args : List Value)
    (e : ReserveError) (h : (Reserve s f args).1 = some e) :
    (Reserve s f args).2 = s :=
  Reserve_state_of_error s f args e h

/-- Witness for C6 at an invalid-callable failure. -/
theorem C6_reserve_error_atomic_witness :
    (Reserve (New [2]) Value.nil []).1 = some ReserveError.invalidFunction ∧
    (Reserve (New [2]) Value.nil []).2 = New [2] :=
  ⟨rfl, C6_reserve_error_atomic (New [2]) Value.nil []
    ReserveError.invalidFunction rfl⟩

theorem checkArgTypes_eq_false_iff :
    ∀ (ps : List GoType) (args : List Value),
    checkArgTypes ps args = false ↔
      ∃ i : Nat, ∃ hp : i < ps.length, ∃ ha : i < args.length,
        ¬ args[i] = Value.nil ∧
        assignableTo (args[i]).runtimeType ps[i] = false := by
  intro ps
  induction ps with
  | nil =>
    intro args
    cases args with
    | nil => simp [checkArgTypes]
    | cons a as => simp [checkArgTypes]
  | cons p ps ih =>
    intro args
    cases args with
    | nil => simp [checkArgTypes]
    | cons a as =>
      show ((a == Value.nil || assignableTo a.runtimeType p) &&
        checkArgTypes ps as) = false ↔ _
      rw [Bool.and_eq_false_iff, Bool.or_eq_false_iff]
      constructor
      · rintro (⟨hne, hassign⟩ | hrest)
        · refine ⟨0, by simp, by simp, ?_, ?_⟩
          · simpa using ne_of_beq_false hne
          · simpa using hassign
        · rcases (ih as).mp hrest with ⟨i, hp, ha, hn, hb⟩
          refine ⟨i + 1, by simpa using Nat.succ_lt_succ hp,
            by simpa using Nat.succ_lt_succ ha, ?_, ?_⟩
          · simpa using hn
          · simpa using hb
      · rintro ⟨i, hp, ha, hn, hb⟩
        cases i with
        | zero =>
          refine Or.inl ⟨beq_false_of_ne (by simpa using hn), by simpa using hb⟩
        | succ j =>
          refine Or.inr ((ih as).mpr ⟨j, ?_, ?_, ?_, ?_⟩)
          · simpa using hp
          · simpa using ha
          · simpa using hn
          · simpa using hb

theorem checkArgTypes_of_all_nil :
    ∀ (ps : List GoType) (args : List Value),
    (∀ a ∈ args, a = Value.nil) → checkArgTypes ps args = true := by
  intro ps
  induction ps with
  | nil =>
    intro args _
    cases args with
    | nil => rfl
    | cons a as => rfl
  | cons p ps ih =>
    intro args h
    cases args with
    | nil => rfl
    | cons a as =>
      show ((a == Value.nil || assignableTo a.runtimeType p) &&
        checkArgTypes ps as) = true
      rw [h a (by simp)]
      simp [ih as (fun x hx => h x (by simp [hx]))]

/-- Claim C3 counterexample: a one-int-parameter callable given two
string arguments.  A parameter index with a non-null, non-assignable
argument exists (index 0), yet Reserve returns TooManyArguments, not
TypeMismatch — the arity checks run first, so the claimed "if and only
if" fails as stated. -/
theorem C3_counterexample :
    (∃ i : Nat, ∃ hp : i < ([GoType.tInt] : List GoType).length,
      ∃ ha : i < ([Value.prim GoType.tString 0,
        Value.prim GoType.tString 1] : List Value).length,
      ¬ [Value.prim GoType.tString 0, Value.prim GoType.tString 1][i] =
          Value.nil ∧
      assignableTo
        ([Value.prim GoType.tString 0,
          Value.prim GoType.tString 1][i]).runtimeType
        ([GoType.tInt] : List GoType)[i] = false) ∧
    (Reserve (New []) (Value.func_ [GoType.tInt] 0)
        [Value.prim GoType.tString 0, Value.prim GoType.tString 1]).1 =
      some ReserveError.tooManyArgs ∧
    ¬ (Reserve (New []) (Value.func_ [GoType.tInt] 0)
        [Value.prim GoType.tString 0, Value.prim GoType.tString 1]).1 =
      some ReserveError.typeMismatch :=
  ⟨⟨0, by decide, by decide, by decide, by decide⟩, by decide, by decide⟩

/-- Claim C3 (amended): provided the callable is a function and the
supplied argument count equals its arity, Reserve returns TypeMismatch
iff some parameter index has a non-null argument whose runtime type is
not assignable to the declared parameter type; and if every supplied
argument is null the registration is accepted regardless of the declared
parameter types. -/
theorem C3_amended_type_mismatch_iff (s : Tebata) (ps : List GoType)
    (m : Nat) (args : List Value) (hlen : args.length = ps.length) :
    ((Reserve s (Value.func_ ps m) args).1 = some ReserveError.typeMismatch ↔
      ∃ i : Nat, ∃ hp : i < ps.length, ∃ ha : i < args.length,
        ¬ args[i] = Value.nil ∧
        assignableTo (args[i]).runtimeType ps[i] = false) ∧
    ((∀ a ∈ args, a = Value.nil) →
      (Reserve s (Value.func_ ps m) args).1 = none) := by
  have h1 : ¬ args.length < ps.length := by omega
  have h2 : ¬ args.length > ps.length := by omega
  constructor
  · by_cases h3 : checkArgTypes ps args = false
    · have hr : (Reserve s (Value.func_ ps m) args).1 =
          some ReserveError.typeMismatch := by
        simp [Reserve, h1, h2, h3]
      rw [hr]
      exact iff_of_true rfl ((checkArgTypes_eq_false_iff ps args).mp h3)
    · have hr : (Reserve s (Value.func_ ps m) args).1 = none := by
        simp [Reserve, h1, h2, h3]
      rw [hr]
      have hright : ¬ ∃ i : Nat, ∃ hp : i < ps.length, ∃ ha : i < args.length,
          ¬ args[i] = Value.nil ∧
          assignableTo (args[i]).runtimeType ps[i] = false :=
        fun hex => h3 ((checkArgTypes_eq_false_iff ps args).mpr hex)
      simp [hright]
  · intro hnil
    have hck := checkArgTypes_of_all_nil ps args hnil
    simp [Reserve, h1, h2, hck]

/-- Witness for the amended C3: a one-int-parameter callable with one
string argument (TypeMismatch via index 0), instantiating the theorem. -/
theorem C3_amended_type_mismatch_iff_witness :
    ((Reserve (New []) (Value.func_ [GoType.tInt] 0)
        [Value.prim GoType.tString 5]).1 = some ReserveError.typeMismatch ↔
      ∃ i : Nat, ∃ hp : i < ([GoType.tInt] : List GoType).length,
        ∃ ha : i < ([Value.prim GoType.tString 5] : List Value).length,
        ¬ [Value.prim GoType.tString 5][i] = Value.nil ∧
        assignableTo ([Value.prim GoType.tString 5][i]).runtimeType
          ([GoType.tInt] : List GoType)[i] = false) ∧
    ((∀ a ∈ ([Value.prim GoType.tString 5] : List Value), a = Value.nil) →
      (Reserve (New []) (Value.func_ [GoType.tInt] 0)
        [Value.prim GoType.tString 5]).1 = none) :=
  C3_amended_type_mismatch_iff (New []) [GoType.tInt] 0
    [Value.prim GoType.tString 5] (by decide)

/-- Claim C8 counterexample: reserving a nil argument for an int
parameter succeeds (the code skips nil arguments for every parameter
type), so the registry of a reachable dispatcher holds an entry whose
argument is neither assignable to its parameter's type nor excused by a
reference-like parameter type — the spec-worded invariant fails. -/
theorem C8_counterexample :
    Reachable (Reserve (New []) (Value.func_ [GoType.tInt] 0) [Value.nil]).2 ∧
    ({ function := Value.func_ [GoType.tInt] 0, args := [Value.nil] } :
        functionData) ∈
      (Reserve (New []) (Value.func_ [GoType.tInt] 0)
        [Value.nil]).2.reservedFunctions ∧
    specReservedCallInvariant
      { function := Value.func_ [GoType.tInt] 0, args := [Value.nil] } =
      false :=
  ⟨Reachable.reserve _ _ (Reachable.new []), by decide, by decide⟩

/-- Claim C8 (amended): every ReservedCall ever present in the registry
satisfies the invariant the code actually enforces — the bound argument
count equals the callable's arity, and each bound argument is assignable
to the declared type of its parameter or is the nil sentinel, regardless
of the declared parameter type. -/
theorem C8_amended_registry_invariant (s : Tebata) (h : Reachable s) :
    ∀ fd ∈ s.reservedFunctions, validEntry fd = true :=
  reachable_entries_valid h

/-- Witness for the amended C8 at a dispatcher with one reservation. -/
theorem C8_amended_registry_invariant_witness :
    validEntry
      { function := Value.func_ [GoType.tInt] 0,
        args := [Value.prim GoType.tInt 3] } = true :=
  C8_amended_registry_invariant goodState
    (Reachable.reserve _ _ (Reachable.new [1]))
    { function := Value.func_ [GoType.tInt] 0,
      args := [Value.prim GoType.tInt 3] }
    (by decide)

/-- Claim C9: the pending-notification queue has capacity exactly one,
at most one notification is ever queued on a reachable dispatcher, and a
signal delivered while one is already queued is dropped (coalesced). -/
theorem C9_pending_queue_capacity_one (s : Tebata) (sig : Signal)
    (h : Reachable s) :
    signalChCap = 1 ∧ s.signalCh.length ≤ 1 ∧
    (s.signalCh.length = 1 → deliverSignal s sig = s) := by
  refine ⟨rfl, reachable_signalCh_bound h, ?_⟩
  intro hfull
  unfold deliverSignal
  split
  · rfl
  · split
    · split
      · next hlt => rw [hfull] at hlt; exact absurd hlt (by decide)
      · rfl
    · rfl

/-- Witness for C9: after one delivered signal the queue is full and a
second delivery of the same subscribed signal is dropped. -/
theorem C9_pending_queue_capacity_one_witness :
    signalChCap = 1 ∧ (deliverSignal (New [5]) 5).signalCh.length ≤ 1 ∧
    deliverSignal (deliverSignal (New [5]) 5) 5 = deliverSignal (New [5]) 5 :=
  have hth := C9_pending_queue_capacity_one (deliverSignal (New [5]) 5) 5
    (Reachable.deliver 5 (Reachable.new [5]))
  ⟨hth.1, hth.2.1, hth.2.2 (by decide)⟩

/-- Claim C2 evaluated at its failing input (code bug): the first Close
succeeds and afterwards even a subscribed signal is no longer delivered,
but a second Close panics — `close` of an already-closed channel — so
Close is not idempotent as the spec requires. -/
theorem C2_double_close_panics :
    (Close (New [1])).isSome = true ∧
    (Close (New [1])).map (fun s1 => deliverSignal s1 1) = Close (New [1]) ∧
    (Close (New [1])).bind Close = none :=
  ⟨rfl, rfl, rfl⟩

/-- Claim C7 counterexample: after a signal was delivered and Close was
called, both select cases are ready on the reachable state
`closedPendingState`, yet the listener may take the signal case, drain
the pending notification and execute a fresh dispatch after cancellation
was requested — cancellation does not take priority. -/
theorem C7_counterexample :
    Close (deliverSignal (New [1]) 1) = some closedPendingState ∧
    Reachable closedPendingState ∧
    sigReady closedPendingState = true ∧
    doneReady closedPendingState = true ∧
    listenStep closedPendingState SelectChoice.sig =
      some ({ closedPendingState with signalCh := [] },
        ListenEvent.dispatch) :=
  ⟨by decide,
   Reachable.close (Reachable.deliver 1 (Reachable.new [1])) (by decide),
   by decide, by decide, by decide⟩

/-- Claim C7 (amended): when a pending notification and the set
cancellation token are simultaneously ready, the select chooses between
them nondeterministically — taking the cancellation case stops the task
without draining the notification, while taking the signal case drains
it and performs one more dispatch even though cancellation was
requested. -/
theorem C7_amended_select_race (s : Tebata)
    (hsig : sigReady s = true) (hdone : doneReady s = true) :
    listenStep s SelectChoice.done = some (s, ListenEvent.stop) ∧
    listenStep s SelectChoice.sig =
      some ({ s with signalCh := s.signalCh.tail }, ListenEvent.dispatch) := by
  constructor
  · simp [listenStep, hdone]
  · simp [listenStep, hsig]

/-- Witness for the amended C7 at the closed-with-pending-signal state. -/
theorem C7_amended_select_race_witness :
    listenStep closedPendingState SelectChoice.done =
      some (closedPendingState, ListenEvent.stop) ∧
    listenStep closedPendingState SelectChoice.sig =
      some ({ closedPendingState with
        signalCh := closedPendingState.signalCh.tail }, ListenEvent.dispatch) :=
  C7_amended_select_race closedPendingState (by decide) (by decide)

theorem zip_all_of_checkArgTypes :
    ∀ (ps : List GoType) (args : List Value),
    checkArgTypes ps args = true →
    (∀ a ∈ args, ¬ a = Value.nil) →
    (List.zip ps args).all
      (fun pa => !(pa.2 == Value.nil) &&
        assignableTo pa.2.runtimeType pa.1) = true := by
  intro ps
  induction ps with
  | nil =>
    intro args _ _
    cases args with
    | nil => rfl
    | cons a as => rfl
  | cons p ps ih =>
    intro args hck hnn
    cases args with
    | nil => rfl
    | cons a as =>
      have hhead : (a == Value.nil || assignableTo a.runtimeType p) = true ∧
          checkArgTypes ps as = true := by
        have : ((a == Value.nil || assignableTo a.runtimeType p) &&
            checkArgTypes ps as) = true := hck
        exact Bool.and_eq_true_iff.mp this
      have ha : ¬ a = Value.nil := hnn a (by simp)
      have hb : (a == Value.nil) = false := beq_false_of_ne ha
      have hassign : assignableTo a.runtimeType p = true := by
        have := hhead.1
        rw [hb] at this
        simpa using this
      simp only [List.zip_cons_cons, List.all_cons, Bool.and_eq_true]
      refine ⟨⟨by simp [hb], hassign⟩, ?_⟩
      exact ih as hhead.2 (fun x hx => hnn x (by simp [hx]))

theorem callPre_of_valid_nonnil {fd : functionData}
    (hv : validEntry fd = true)
    (hnn : ∀ a ∈ fd.args, ¬ a = Value.nil) :
    callPre fd = true := by
  rcases fd with ⟨f, args⟩
  cases f with
  | nil => simp [validEntry] at hv
  | prim t m => simp [validEntry] at hv
  | func_ ps m =>
    simp only [validEntry, Bool.and_eq_true, beq_iff_eq] at hv
    simp only [callPre, Bool.and_eq_true, beq_iff_eq]
    exact ⟨hv.1, zip_all_of_checkArgTypes ps args hv.2 hnn⟩

theorem execList_all_callPre {l : List functionData}
    (h : ∀ fd ∈ l, callPre fd = true) :
    execList l = (l.map (fun fd => (fd.function, fd.args)), false) := by
  induction l with
  | nil => rfl
  | cons fd rest ih =>
    have h1 : callPre fd = true := h fd (by simp)
    have h2 := ih (fun g hg => h g (by simp [hg]))
    simp [execList, h1, h2]

theorem exec_trace_of_nonnil {s : Tebata} (h : Reachable s)
    (hnn : ∀ fd ∈ s.reservedFunctions, ∀ a ∈ fd.args, ¬ a = Value.nil) :
    exec s = (s.reservedFunctions.map (fun fd => (fd.function, fd.args)),
      false) := by
  unfold exec
  exact execList_all_callPre (fun fd hfd =>
    callPre_of_valid_nonnil (reachable_entries_valid h fd hfd) (hnn fd hfd))

/-- Claim C1 counterexample: a reachable dispatcher whose registry holds
a nil-argument entry followed by a well-formed zero-argument entry.  The
dispatch step faults on the first entry's reflective call (zero `Value`
argument), so neither entry's callable is invoked: the invocation trace
is empty rather than one invocation per reserved entry. -/
theorem C1_counterexample :
    Reachable nilArgState ∧
    nilArgState.reservedFunctions =
      [{ function := Value.func_ [GoType.tPtr GoType.tString] 0,
         args := [Value.nil] },
       { function := Value.func_ [] 1, args := [] }] ∧
    exec nilArgState = ([], true) ∧
    ¬ (exec nilArgState).1 =
      nilArgState.reservedFunctions.map (fun fd => (fd.function, fd.args)) :=
  ⟨Reachable.reserve _ _ (Reachable.reserve _ _ (Reachable.new [])),
   by decide, by decide, by decide⟩

/-- Claim C1 (amended): for every reachable dispatcher whose reserved
entries all have only non-nil bound arguments, the dispatch step invokes
every entry currently in the reserved-function sequence exactly once, in
registration order, each callable applied to exactly the argument list
bound at registration time (the trace is precisely the registry in
order, with no fault); and a successful Reserve appends its entry after
all previously reserved entries, so registration order is execution
order. -/
theorem C1_exec_in_registration_order (s : Tebata) (f : Value)
    (args : List Value) (h : Reachable s)
    (hnn : ∀ fd ∈ s.reservedFunctions, ∀ a ∈ fd.args, ¬ a = Value.nil)
    (hok : (Reserve s f args).1 = none) :
    exec s = (s.reservedFunctions.map (fun fd => (fd.function, fd.args)),
      false) ∧
    (Reserve s f args).2.reservedFunctions =
      s.reservedFunctions ++ [{ function := f, args := args }] :=
  ⟨exec_trace_of_nonnil h hnn, Reserve_ok_append s f args hok⟩

/-- Witness for the amended C1 at a dispatcher with one int-argument
reservation and a successful zero-argument registration. -/
theorem C1_exec_in_registration_order_witness :
    exec goodState =
      (goodState.reservedFunctions.map (fun fd => (fd.function, fd.args)),
        false) ∧
    (Reserve goodState (Value.func_ [] 5) []).2.reservedFunctions =
      goodState.reservedFunctions ++
        [{ function := Value.func_ [] 5, args := [] }] :=
  C1_exec_in_registration_order goodState (Value.func_ [] 5) []
    (Reachable.reserve _ _ (Reachable.new [1])) (by decide) (by decide)

/-- Claim C10: on a reachable dispatcher whose reserved entries all have
only non-nil bound arguments, the dispatch machinery itself never
faults — `exec` completes (fault flag false, trivially including the
empty registry), and every reflective call it performs is to a function
value with exactly as many argument values as that callable's declared
parameters. -/
theorem C10_exec_machinery_no_fault (s : Tebata) (h : Reachable s)
    (hnn : ∀ fd ∈ s.reservedFunctions, ∀ a ∈ fd.args, ¬ a = Value.nil) :
    (exec s).2 = false ∧
    ∀ call ∈ (exec s).1, ∃ ps m, call.1 = Value.func_ ps m ∧
      call.2.length = ps.length := by
  have ht := exec_trace_of_nonnil h hnn
  refine ⟨by rw [ht], ?_⟩
  intro call hcall
  rw [ht] at hcall
  simp only [List.mem_map] at hcall
  obtain ⟨fd, hfd, hfde⟩ := hcall
  have hv := reachable_entries_valid h fd hfd
  rcases fd with ⟨f, args⟩
  cases f with
  | nil => simp [validEntry] at hv
  | prim t m => simp [validEntry] at hv
  | func_ ps m =>
    simp only [validEntry, Bool.and_eq_true, beq_iff_eq] at hv
    rw [← hfde]
    exact ⟨ps, m, rfl, hv.1⟩

/-- Witness for C10 at a dispatcher with one int-argument reservation:
the dispatch does not fault and its single call matches the callable's
arity. -/
theorem C10_exec_machinery_no_fault_witness :
    (exec goodState).2 = false ∧
    (∃ ps m,
      (Value.func_ [GoType.tInt] 0, ([Value.prim GoType.tInt 3] :
        List Value)).1 = Value.func_ ps m ∧
      (Value.func_ [GoType.tInt] 0, ([Value.prim GoType.tInt 3] :
        List Value)).2.length = ps.length) :=
  have hth := C10_exec_machinery_no_fault goodState
    (Reachable.reserve _ _ (Reachable.new [1])) (by decide)
  ⟨hth.1, hth.2 (Value.func_ [GoType.tInt] 0, [Value.prim GoType.tInt 3])
    (by decide)⟩
